import Mathlib

/-!
Verification development for the upcoming-event extraction engine of the
AI-Summariser frontend.

The embedding covers two units of the repository:

* the DraftReconciler: `createFromDraft` in
  `frontend/src/components/CalendarPanel.jsx` (an identical copy,
  `createFromComposer`, lives in the second CalendarPanel variant), together
  with its helpers `partsToISO`, `isoToParts`, and the draft-prefill
  `useEffect` that applies the default 60-minute duration;

* the DateMiner: `extractUpcomingFromText` in
  `frontend/src/components/Dashboard.js` (cap 8, strict after-now filter,
  month-name year roll-forward) and the anchored variant in
  `frontend/src/components/pages/UploadsPage.js` (anchor-year header scan,
  non-strict filter, ascending sort, cap 12), together with `parseTimeBits`,
  `toLocalISO`, the `MONTHS` table and the three regex recognizer passes.

Modelling conventions, used throughout:

* Wall-clock instants are minutes since the civil epoch 1970-01-01T00:00,
  as integers.  The model has a single timezone (local = UTC, no DST), so
  `Date.prototype.toISOString` and `toLocalISO` denote the same instant and
  `e.setDate(e.getDate() + 1)` is exactly `+ 1440` minutes.
* `new Date(y, monthIndex, d, hh, mm, 0)` is embedded as `jsDateMin`, which
  performs the same calendar normalization (overflowing months, days, hours
  and minutes are carried) via the standard civil-from-days arithmetic.
* Strings that the source merely shuttles between `<input>` elements and
  `partsToISO` (`"YYYY-MM-DD"`, `"HH:MM"`) are embedded as structured
  optional values, `none` standing for the empty or unparseable string;
  `partsToISO` returning `none` models `new Date(...)` being `Invalid Date`.
* Regex scanning is embedded faithfully as executable left-to-right
  scanners over the character array, including word boundaries, greedy
  alternatives and backtracking, mirroring `String.prototype.matchAll`.
-/

/-! ## Civil-calendar arithmetic -/

/-- Days since 1970-01-01 of the civil date `(y, m, d)` with `m ∈ 1..12`
(Howard Hinnant's `days_from_civil`, the arithmetic underlying JS `MakeDay`).
`d` may lie outside `1..last-day` — the overflow is carried, exactly as in
`new Date(y, m - 1, d)`. -/
def daysFromCivil (y m d : Int) : Int :=
  let y' := y - (if m ≤ 2 then 1 else 0)
  let era := y' / 400
  let yoe := y' % 400
  let mp := m + (if m > 2 then -3 else 9)
  let doy := (153 * mp + 2) / 5 + d - 1
  let doe := yoe * 365 + yoe / 4 - yoe / 100 + doy
  era * 146097 + doe - 719468

/-- Inverse of `daysFromCivil` (Hinnant's `civil_from_days`): the civil date
`(y, m, d)` of a day count, with `1 ≤ m ≤ 12` and `d` in range. -/
def civilFromDays (z : Int) : Int × Int × Int :=
  let z' := z + 719468
  let era := z' / 146097
  let doe := z' % 146097
  let yoe := (doe - doe / 1460 + doe / 36524 - doe / 146096) / 365
  let y := yoe + era * 400
  let doy := doe - (365 * yoe + yoe / 4 - yoe / 100)
  let mp := (5 * doy + 2) / 153
  let d := doy - (153 * mp + 2) / 5 + 1
  let m := mp + (if mp < 10 then 3 else -9)
  (y + (if m ≤ 2 then 1 else 0), m, d)

/-- Minutes since the epoch of `new Date(y, monthIndex, d, hh, mm, 0)`:
the month index is first carried into the year (floor/mod 12, so index `-1`
is December of the previous year), then day, hour and minute overflow is
carried linearly — JS `MakeDay`/`MakeTime` normalization. -/
def jsDateMin (y monthIndex d hh mm : Int) : Int :=
  let ny := y + monthIndex / 12
  let nm := monthIndex % 12 + 1
  (daysFromCivil ny nm 1 + (d - 1)) * 1440 + hh * 60 + mm

/-- Minutes since the epoch of the in-range civil date-time `(y, m, d, hh, mi)`
with `m ∈ 1..12`; convenience for stating concrete instants. -/
def civMin (y m d hh mi : Int) : Int :=
  daysFromCivil y m d * 1440 + hh * 60 + mi

/-- The civil decomposition `(y, m, d, hh, mi)` of an instant in minutes —
the model of the `getFullYear`/`getMonth`/`getDate`/`getHours`/`getMinutes`
accessor family (seconds are always 0 in this development). -/
def civilFromMin (t : Int) : Int × Int × Int × Int × Int :=
  let days := t / 1440
  let rem := t % 1440
  let c := civilFromDays days
  (c.1, c.2.1, c.2.2, rem / 60, rem % 60)

/-- `getFullYear` of an instant: models `new Date().getFullYear()` with the
ambient clock passed explicitly as `now`. -/
def yearOfInstant (t : Int) : Int := (civilFromMin t).1

/-- `dt.setFullYear(dt.getFullYear() + 1)`: decompose, bump the year, and
re-normalize (Feb 29 becomes Mar 1 in a non-leap year, as in JS). -/
def addOneYear (t : Int) : Int :=
  let c := civilFromMin t
  jsDateMin (c.1 + 1) (c.2.1 - 1) c.2.2.1 c.2.2.2.1 c.2.2.2.2

/-- Days in a civil month, with the Gregorian leap rule. -/
def daysInMonth (y m : Int) : Int :=
  if m = 2 then
    if y % 4 = 0 ∧ (y % 100 ≠ 0 ∨ y % 400 = 0) then 29 else 28
  else if m = 4 ∨ m = 6 ∨ m = 9 ∨ m = 11 then 30
  else 31

/-! ## String rendering helpers (`p2`, `toLocalISO`) -/

/-- `String(n).padStart(2, "0")`. -/
def p2 (n : Int) : String :=
  let s := toString n
  if s.length < 2 then "0" ++ s else s

/-- `toLocalISO(dateObj)` of `Dashboard.js` / `UploadsPage.js`: renders the
civil decomposition as `Y-MM-DDTHH:MM:SS`.  Every date object the miner
renders is built with a 0 seconds component, hence the constant `":00"`. -/
def toLocalISO (t : Int) : String :=
  let c := civilFromMin t
  toString c.1 ++ "-" ++ p2 c.2.1 ++ "-" ++ p2 c.2.2.1 ++ "T" ++
    p2 c.2.2.2.1 ++ ":" ++ p2 c.2.2.2.2 ++ ":00"

/-! ## DraftReconciler data model -/

/-- A wall-clock time of day, the structured form of an `"HH:MM"` string. -/
structure Tod where
  hh : Int
  mi : Int
  deriving DecidableEq, Repr

/-- A calendar date, the structured form of a `"YYYY-MM-DD"` string. -/
structure CalDate where
  y : Int
  m : Int
  d : Int
  deriving DecidableEq, Repr

/-- An editable event draft (CalendarPanel draft row / composer fields).
`none` in a date or time field stands for an empty or unparseable string. -/
structure Draft where
  title : String
  date : Option CalDate
  start_time : Option Tod
  end_time : Option Tod
  description : String
  deriving DecidableEq, Repr

/-- The body POSTed to `/api/calendar/create`; instants in minutes. -/
structure Payload where
  title : String
  description : String
  start_iso : Int
  end_iso : Int
  deriving DecidableEq, Repr

/-- Validation failures of `createFromDraft`: the two `setErr` early
returns (`"Please set a valid date and start time."` /
`"Please set a valid end time."`). -/
inductive CreateErr where
  | invalidStart
  | invalidEnd
  deriving DecidableEq, Repr

/-- Result of `createFromDraft`: either the payload it submits or the
validation error it surfaces. -/
inductive CreateResult where
  | ok (p : Payload)
  | err (e : CreateErr)
  deriving DecidableEq, Repr

/-- `partsToISO(dateStr, timeStr)` of `CalendarPanel.jsx`: combine a date
and a time into an instant; `none` when either part is missing or the
combination is not a valid date-time (JS `Invalid Date`, e.g. Feb 31 or
hour 99 — the ISO *string* parser used here, unlike `new Date(y, m, d)`,
does not carry overflow). -/
def partsToISO (date : Option CalDate) (time : Option Tod) : Option Int :=
  match date, time with
  | some dt, some t =>
    if 0 ≤ dt.y ∧ dt.y ≤ 9999 ∧ 1 ≤ dt.m ∧ dt.m ≤ 12 ∧
       1 ≤ dt.d ∧ dt.d ≤ daysInMonth dt.y dt.m ∧
       0 ≤ t.hh ∧ t.hh ≤ 23 ∧ 0 ≤ t.mi ∧ t.mi ≤ 59 then
      some (daysFromCivil dt.y dt.m dt.d * 1440 + t.hh * 60 + t.mi)
    else none
  | _, _ => none

/-- `String.prototype.trim`: strip whitespace from both ends. -/
def trimStr (s : String) : String :=
  String.mk (((s.toList.dropWhile fun c => c == ' ' || c == '\t' || c == '\n' ||
      c == '\r').reverse.dropWhile fun c => c == ' ' || c == '\t' || c == '\n' ||
      c == '\r').reverse)

/-- ASCII lower-casing of one character (the model of `toLowerCase` on the
character sets these regexes and tables involve). -/
def lowerChar (c : Char) : Char :=
  if c.isUpper then Char.ofNat (c.toNat + 32) else c

/-- `String.prototype.toLowerCase`. -/
def lowerStr (s : String) : String := String.mk (s.toList.map lowerChar)

/-- `String.prototype.slice(0, n)`. -/
def takeStr (n : Nat) (s : String) : String := String.mk (s.toList.take n)

/-- `createFromDraft` of `CalendarPanel.jsx` lines 131-162 (the identical
`createFromComposer` is at lines 203-232 of the second CalendarPanel
variant): validate start, validate end, and if `end ≤ start` replace the
end by a copy of the *start* advanced one day (`e = new Date(start_iso);
e.setDate(e.getDate() + 1)`), then submit the payload. -/
def createFromDraft (d : Draft) : CreateResult :=
  match partsToISO d.date d.start_time with
  | none => .err .invalidStart
  | some s =>
    match partsToISO d.date d.end_time with
    | none => .err .invalidEnd
    | some e0 =>
      let e := if e0 ≤ s then s + 1440 else e0
      .ok { title := trimStr (if d.title = "" then "Follow-up meeting" else d.title)
            description := d.description
            start_iso := s
            end_iso := e }

/-! ## Character-level scanning machinery

The three recognizer passes of the miner are JS regexes run with
`String.prototype.matchAll`.  They are embedded as executable scanners over
the character array of the text: a *tryer* attempts a match at a given
position (implementing the pattern's greedy alternatives and backtracking
explicitly) and the driver advances to the end of each match, or by one
character after a failed position — exactly `matchAll`'s behavior for
these patterns, none of which can match the empty string. -/

/-- JS `\w`: ASCII letters, digits, underscore. -/
def isWordChar (c : Char) : Bool := c.isAlphanum || c == '_'

/-- JS `\s`, restricted to the whitespace forms relevant here. -/
def isSpaceChar (c : Char) : Bool := c == ' ' || c == '\t' || c == '\n' || c == '\r'

/-- Character at an index, with a NUL sentinel beyond the end (NUL is not a
word character, digit, or space, so boundary checks at the ends work out). -/
def charAt (a : Array Char) (i : Nat) : Char := a.getD i (Char.ofNat 0)

/-- Whether the character at `i` is a word character (`false` past the end). -/
def wordAt (a : Array Char) (i : Nat) : Bool := isWordChar (charAt a i)

/-- JS `\b` at position `i` (between characters `i - 1` and `i`). -/
def boundaryAt (a : Array Char) (i : Nat) : Bool :=
  (if i = 0 then false else wordAt a (i - 1)) != wordAt a i

/-- `n` consecutive digits starting at `i`? -/
def digitsAt (a : Array Char) (i n : Nat) : Bool :=
  (List.range n).all fun k => (charAt a (i + k)).isDigit

/-- Numeric value of the `n` digits starting at `i`. -/
def numAt (a : Array Char) (i n : Nat) : Int :=
  (List.range n).foldl (fun acc k => acc * 10 + ((charAt a (i + k)).toNat - 48)) 0

/-- The substring `[i, j)` of the scanned text (a regex match `m[0]` or a
capture group, reconstructed from its span). -/
def sliceStr (a : Array Char) (i j : Nat) : String :=
  String.mk (a.extract i j).toList

/-- Length of the run of whitespace starting at `i` (fuel-bounded; the NUL
sentinel stops the run at the end of the array). -/
def spaceRunGo (a : Array Char) : Nat → Nat → Nat
  | _, 0 => 0
  | i, fuel + 1 => if isSpaceChar (charAt a i) then spaceRunGo a (i + 1) fuel + 1 else 0

/-- Length of the whitespace run starting at `i`. -/
def spaceRun (a : Array Char) (i : Nat) : Nat := spaceRunGo a i (a.size + 1)

/-- Case-insensitive literal match of `w` at position `i`. -/
def matchCIAt (a : Array Char) : Nat → List Char → Bool
  | _, [] => true
  | i, c :: cs => ((charAt a i).toLower == c) && matchCIAt a (i + 1) cs

/-- First `some` in a list of alternatives (regex alternation order). -/
def firstSome {α : Type} (l : List (Option α)) : Option α :=
  l.foldr (fun o r => o <|> r) none

/-- Left-to-right scan driver: `try i` yields a match value and the index
just past it.  On success the scan resumes at the match end (`matchAll`
advances `lastIndex` to it; all embedded patterns have positive length),
on failure at `i + 1`. -/
def scanAllGo {M : Type} (try_ : Nat → Option (M × Nat)) (sz : Nat) : Nat → Nat → List M
  | _, 0 => []
  | i, fuel + 1 =>
    if i < sz then
      match try_ i with
      | some (m, j) => m :: scanAllGo try_ sz (max (i + 1) j) fuel
      | none => scanAllGo try_ sz (i + 1) fuel
    else []

/-- All matches of a tryer over a text of size `sz`, left to right. -/
def scanAll {M : Type} (try_ : Nat → Option (M × Nat)) (sz : Nat) : List M :=
  scanAllGo try_ sz 0 (sz + 1)

/-- First match of a tryer (JS `String.prototype.match` without `g`). -/
def findFirstGo {M : Type} (try_ : Nat → Option M) (sz : Nat) : Nat → Nat → Option M
  | _, 0 => none
  | i, fuel + 1 =>
    if i < sz then
      match try_ i with
      | some m => some m
      | none => findFirstGo try_ sz (i + 1) fuel
    else none

/-- First match of a tryer over a text of size `sz`. -/
def findFirst {M : Type} (try_ : Nat → Option M) (sz : Nat) : Option M :=
  findFirstGo try_ sz 0 (sz + 1)

/-! ## `parseTimeBits` -/

/-- An `am`/`pm` suffix. -/
inductive Merid where
  | am
  | pm
  deriving DecidableEq, Repr

/-- Result of `parseTimeBits`. -/
structure TimeBits where
  h24 : Int
  m : Int
  deriving DecidableEq, Repr

/-- The three sequential hour adjustments of `parseTimeBits`
(`Dashboard.js` lines 42-44 / `UploadsPage.js` lines 466-468): standard
12-hour conversion when a suffix is present, and the `hour ≤ 7 → +12`
business-hours heuristic when it is not. -/
def applyTimeHeuristic (h : Int) (ap : Option Merid) : Int :=
  let h1 := if ap = some .pm ∧ h < 12 then h + 12 else h
  let h2 := if ap = some .am ∧ h1 = 12 then 0 else h1
  if ap = none ∧ h2 ≤ 7 then h2 + 12 else h2

/-- `(am|pm)` (case-insensitive) at position `q`, in alternation order. -/
def meridAt (a : Array Char) (q : Nat) : Option Merid :=
  if (charAt a q).toLower == 'a' && (charAt a (q + 1)).toLower == 'm' then some .am
  else if (charAt a q).toLower == 'p' && (charAt a (q + 1)).toLower == 'm' then some .pm
  else none

/-- Tail `\s*(am|pm)?\b` of the `parseTimeBits` regex at position `p`:
the space run backtracks from maximal to empty; at each width the suffixed
alternative is preferred, then the empty group, each followed by `\b`. -/
def tbTail (a : Array Char) (p : Nat) (h : Int) (mm : Int) :
    Option (Int × Int × Option Merid) :=
  let w := spaceRun a p
  firstSome ((List.range (w + 1)).reverse.map fun k =>
    let q := p + k
    (match meridAt a q with
     | some ap => if boundaryAt a (q + 2) then some (h, mm, some ap) else none
     | none => none)
    <|> (if boundaryAt a q then some (h, mm, none) else none))

/-- One attempt of `/\b(\d{1,2})(?::(\d{2}))?\s*(am|pm)?\b/i` at `i`. -/
def tryTimeBitsAt (a : Array Char) (i : Nat) : Option (Int × Int × Option Merid) :=
  if boundaryAt a i then
    firstSome ([2, 1].map fun lh =>
      if digitsAt a i lh then
        let h := numAt a i lh
        let j := i + lh
        (if charAt a j == ':' && digitsAt a (j + 1) 2 then
           tbTail a (j + 3) h (numAt a (j + 1) 2)
         else none)
        <|> tbTail a j h 0
      else none)
  else none

/-- `parseTimeBits(str)` (`Dashboard.js` lines 35-46, identical in
`UploadsPage.js` lines 459-470): first match of the time regex on the
trimmed string, hour then adjusted by `applyTimeHeuristic`. -/
def parseTimeBits (s : String) : Option TimeBits :=
  if s = "" then none
  else
    let a := (trimStr s).toList.toArray
    match findFirst (fun i => tryTimeBitsAt a i) a.size with
    | some (h, mm, ap) => some ⟨applyTimeHeuristic h ap, mm⟩
    | none => none

/-- `m[4] || ""` — the captured time expression, or the empty string. -/
def orEmpty : Option String → String
  | some s => s
  | none => ""

/-- `tb?.h24 ?? 10`: hour of a captured time expression, default 10. -/
def tbH (t : Option String) : Int :=
  match parseTimeBits (orEmpty t) with
  | some b => b.h24
  | none => 10

/-- `tb?.m ?? 0`: minute of a captured time expression, default 0. -/
def tbM (t : Option String) : Int :=
  match parseTimeBits (orEmpty t) with
  | some b => b.m
  | none => 0

/-! ## ISO pass recognizer -/

/-- A match of `/\b(20\d{2})-(\d{2})-(\d{2})(?:[ T](\d{2}):(\d{2}))?\b/g`. -/
structure IsoMatch where
  y : Int
  mo : Int
  d : Int
  time : Option (Int × Int)
  m0 : String
  deriving DecidableEq, Repr

/-- One attempt of the ISO pattern at `i`: the fixed-shape date, then
greedily the optional `[ T]HH:MM` group, each alternative closed by `\b`. -/
def tryIso (a : Array Char) (i : Nat) : Option (IsoMatch × Nat) :=
  if boundaryAt a i && charAt a i == '2' && charAt a (i + 1) == '0' &&
     digitsAt a (i + 2) 2 && charAt a (i + 4) == '-' && digitsAt a (i + 5) 2 &&
     charAt a (i + 7) == '-' && digitsAt a (i + 8) 2 then
    let y := numAt a i 4
    let mo := numAt a (i + 5) 2
    let d := numAt a (i + 8) 2
    if (charAt a (i + 10) == ' ' || charAt a (i + 10) == 'T') &&
       digitsAt a (i + 11) 2 && charAt a (i + 13) == ':' &&
       digitsAt a (i + 14) 2 && boundaryAt a (i + 16) then
      some (⟨y, mo, d, some (numAt a (i + 11) 2, numAt a (i + 14) 2),
             sliceStr a i (i + 16)⟩, i + 16)
    else if boundaryAt a (i + 10) then
      some (⟨y, mo, d, none, sliceStr a i (i + 10)⟩, i + 10)
    else none
  else none

/-- All ISO matches of a text (shared verbatim by both miner variants). -/
def isoMatches (s : String) : List IsoMatch :=
  let a := s.toList.toArray
  scanAll (fun i => tryIso a i) a.size

/-! ## The shared time-expression group

Both the slash and the month-name regex end in
`(?:\s+(?:at\s+)?(\d{1,2}(?::\d{2})?\s*(?:am|pm)?))?` followed (except in
the Dashboard slash pattern) by `\b`.  `endChk` receives the candidate end
position of the whole match and implements that final `\b` (or is
constantly true when the pattern has no trailing boundary). -/

/-- Tail `\s*(?:am|pm)?` of the captured time expression starting at
`start`, continuing at `p`; backtracks over the space width, preferring
the suffixed alternative. -/
def tryTimeTail (a : Array Char) (start p : Nat) (endChk : Nat → Bool) :
    Option (String × Nat) :=
  let w := spaceRun a p
  firstSome ((List.range (w + 1)).reverse.map fun k =>
    let q := p + k
    (if (meridAt a q).isSome && endChk (q + 2) then
       some (sliceStr a start (q + 2), q + 2)
     else none)
    <|> (if endChk q then some (sliceStr a start q, q) else none))

/-- The capture `(\d{1,2}(?::\d{2})?\s*(?:am|pm)?)` at `j`. -/
def tryTimeExpr (a : Array Char) (j : Nat) (endChk : Nat → Bool) :
    Option (String × Nat) :=
  firstSome ([2, 1].map fun lh =>
    if digitsAt a j lh then
      let p := j + lh
      (if charAt a p == ':' && digitsAt a (p + 1) 2 then
         tryTimeTail a j (p + 3) endChk
       else none)
      <|> tryTimeTail a j p endChk
    else none)

/-- The optional group `\s+(?:at\s+)?(TIME)` at `k` (absence is handled by
the caller's alternation). -/
def tryTimeGroup (a : Array Char) (k : Nat) (endChk : Nat → Bool) :
    Option (String × Nat) :=
  let w := spaceRun a k
  if w == 0 then none
  else
    let j := k + w
    (if (charAt a j).toLower == 'a' && (charAt a (j + 1)).toLower == 't' &&
        spaceRun a (j + 2) > 0 then
       tryTimeExpr a (j + 2 + spaceRun a (j + 2)) endChk
     else none)
    <|> tryTimeExpr a j endChk

/-! ## Slash pass recognizer -/

/-- A match of the `M/D(/year)? (time)?` pattern (captures `m[1]`-`m[4]`). -/
structure SlashMatch where
  mo : Int
  d : Int
  year : Option Int
  time : Option String
  m0 : String
  deriving DecidableEq, Repr

/-- Continue a slash match after month/day(/year) at position `k`: the
optional time group first (greedy), else close the match at `k`. -/
def trySlashAfterYear (a : Array Char) (i k : Nat) (mo d : Int) (y : Option Int)
    (endChk : Nat → Bool) : Option (SlashMatch × Nat) :=
  (match tryTimeGroup a k endChk with
   | some (ts, e) => some (⟨mo, d, y, some ts, sliceStr a i e⟩, e)
   | none => none)
  <|> (if endChk k then some (⟨mo, d, y, none, sliceStr a i k⟩, k) else none)

/-- One attempt of the slash pattern at `i`, parameterized by the year
group (which differs between the two miner variants) and the trailing
boundary.  `\d{1,2}` groups are greedy with backtracking. -/
def trySlashCore (a : Array Char) (i : Nat)
    (yearAlts : Nat → List (Int × Nat)) (endChk : Nat → Bool) :
    Option (SlashMatch × Nat) :=
  if boundaryAt a i then
    firstSome ([2, 1].map fun l1 =>
      if digitsAt a i l1 && charAt a (i + l1) == '/' then
        let j := i + l1 + 1
        firstSome ([2, 1].map fun l2 =>
          if digitsAt a j l2 then
            let mo := numAt a i l1
            let d := numAt a j l2
            let k := j + l2
            (if charAt a k == '/' then
               firstSome ((yearAlts (k + 1)).map fun yc =>
                 trySlashAfterYear a i yc.2 mo d (some yc.1) endChk)
             else none)
            <|> trySlashAfterYear a i k mo d none endChk
          else none)
      else none)
  else none

/-- Year group `(\d{2,4})` of the Dashboard slash pattern, greedy. -/
def yearAltsD (a : Array Char) (k : Nat) : List (Int × Nat) :=
  [4, 3, 2].filterMap fun ly =>
    if digitsAt a k ly then some (numAt a k ly, k + ly) else none

/-- Year group `(20\d{2}|\d{2})` of the UploadsPage slash pattern. -/
def yearAltsU (a : Array Char) (k : Nat) : List (Int × Nat) :=
  (if charAt a k == '2' && charAt a (k + 1) == '0' && digitsAt a (k + 2) 2 then
     [(numAt a k 4, k + 4)]
   else []) ++
  (if digitsAt a k 2 then [(numAt a k 2, k + 2)] else [])

/-- All matches of
`/\b(\d{1,2})\/(\d{1,2})(?:\/(\d{2,4}))?(?:\s+(?:at\s+)?(TIME))?/gi`
(`Dashboard.js` line 71 — note: no trailing `\b`). -/
def slashMatchesD (s : String) : List SlashMatch :=
  let a := s.toList.toArray
  scanAll (fun i => trySlashCore a i (yearAltsD a) (fun _ => true)) a.size

/-- All matches of
`/\b(\d{1,2})\/(\d{1,2})(?:\/(20\d{2}|\d{2}))?(?:\s+(?:at\s+)?(TIME))?\b/gi`
(`UploadsPage.js` line 516). -/
def slashMatchesU (s : String) : List SlashMatch :=
  let a := s.toList.toArray
  scanAll (fun i => trySlashCore a i (yearAltsU a) (fun j => boundaryAt a j)) a.size

/-! ## Month-name pass recognizer -/

/-- A match of the month-name pattern (captures `m[1]`-`m[4]`). -/
structure MonthMatch where
  name : String
  day : Int
  year : Option Int
  time : Option String
  m0 : String
  deriving DecidableEq, Repr

/-- The month-name alternation
`Jan(?:uary)?|Feb(?:ruary)?|...|Sep(?:t|tember)?|...|Dec(?:ember)?` in
regex attempt order (within each branch the optional suffix is greedy;
`Sep` tries `sept`, `september`, `sep`). -/
def monthNameAlts : List String :=
  ["january", "jan", "february", "feb", "march", "mar", "april", "apr", "may",
   "june", "jun", "july", "jul", "august", "aug",
   "sept", "september", "sep", "october", "oct", "november", "nov",
   "december", "dec"]

/-- The optional ordinal `(?:st|nd|rd|th)?` after the day: candidate end
positions, suffixed alternative first. -/
def ordinalAlts (a : Array Char) (k : Nat) : List Nat :=
  (["st", "nd", "rd", "th"].filterMap fun o =>
    if matchCIAt a k o.toList then some (k + 2) else none) ++ [k]

/-- Continue a month-name match after day/ordinal(/year) at `k`. -/
def tryMonthAfterYear (a : Array Char) (i k : Nat) (name : String) (d : Int)
    (y : Option Int) (endChk : Nat → Bool) : Option (MonthMatch × Nat) :=
  (match tryTimeGroup a k endChk with
   | some (ts, e) => some (⟨name, d, y, some ts, sliceStr a i e⟩, e)
   | none => none)
  <|> (if endChk k then some (⟨name, d, y, none, sliceStr a i k⟩, k) else none)

/-- One attempt of the month-name pattern at `i`, parameterized by the
year group (`(?:,\s*(\d{4}))?` in the Dashboard, `(?:,?\s*(20\d{2}))?` in
the UploadsPage variant); both variants end in `\b`. -/
def tryMonthCore (a : Array Char) (i : Nat)
    (yearAlts : Nat → List (Int × Nat)) (endChk : Nat → Bool) :
    Option (MonthMatch × Nat) :=
  if boundaryAt a i then
    firstSome (monthNameAlts.map fun nm =>
      if matchCIAt a i nm.toList then
        let p := i + nm.length
        let w := spaceRun a p
        if w > 0 then
          let j := p + w
          firstSome ([2, 1].map fun ld =>
            if digitsAt a j ld then
              let d := numAt a j ld
              let name := sliceStr a i p
              firstSome ((ordinalAlts a (j + ld)).map fun k =>
                firstSome ((yearAlts k).map fun yc =>
                  tryMonthAfterYear a i yc.2 name d (some yc.1) endChk)
                <|> tryMonthAfterYear a i k name d none endChk)
            else none)
        else none
      else none)
  else none

/-- Year group `(?:,\s*(\d{4}))?` of the Dashboard month pattern: a comma
is required, then any four digits. -/
def monthYearAltsD (a : Array Char) (k : Nat) : List (Int × Nat) :=
  if charAt a k == ',' then
    let w := spaceRun a (k + 1)
    if digitsAt a (k + 1 + w) 4 then [(numAt a (k + 1 + w) 4, k + 1 + w + 4)]
    else []
  else []

/-- `\s*(20\d{2})` — shared tail of the UploadsPage month year group. -/
def monthYearTailU (a : Array Char) (k : Nat) : List (Int × Nat) :=
  let w := spaceRun a k
  if charAt a (k + w) == '2' && charAt a (k + w + 1) == '0' &&
     digitsAt a (k + w + 2) 2 then
    [(numAt a (k + w) 4, k + w + 4)]
  else []

/-- Year group `(?:,?\s*(20\d{2}))?` of the UploadsPage month pattern:
the comma is optional and the year must start with `20`. -/
def monthYearAltsU (a : Array Char) (k : Nat) : List (Int × Nat) :=
  (if charAt a k == ',' then monthYearTailU a (k + 1) else []) ++
  monthYearTailU a k

/-- All matches of the Dashboard month-name pattern (`Dashboard.js`
lines 92-93). -/
def monthMatchesD (s : String) : List MonthMatch :=
  let a := s.toList.toArray
  scanAll (fun i => tryMonthCore a i (monthYearAltsD a) (fun j => boundaryAt a j)) a.size

/-- All matches of the UploadsPage month-name pattern (`UploadsPage.js`
lines 548-549). -/
def monthMatchesU (s : String) : List MonthMatch :=
  let a := s.toList.toArray
  scanAll (fun i => tryMonthCore a i (monthYearAltsU a) (fun j => boundaryAt a j)) a.size

/-! ## Anchor-year extraction (UploadsPage only) -/

/-- The literal `date:` (compared case-insensitively). -/
def dateHeadLit : List Char := "date:".toList

/-- Length of the run of ASCII letters starting at `i` (fuel-bounded). -/
def letterRunGo (a : Array Char) : Nat → Nat → Nat
  | _, 0 => 0
  | i, fuel + 1 => if (charAt a i).isAlpha then letterRunGo a (i + 1) fuel + 1 else 0

/-- Length of the letter run starting at `i`. -/
def letterRun (a : Array Char) (i : Nat) : Nat := letterRunGo a i (a.size + 1)

/-- The optional `(?:,\s*)?` between day and year in the header pattern:
candidate continuation positions, comma-consuming alternative first. -/
def commaAlts (a : Array Char) (k : Nat) : List Nat :=
  (if charAt a k == ',' then [k + 1 + spaceRun a (k + 1)] else []) ++ [k]

/-- Rest of the header pattern after the month word:
`\.?\s+\d{1,2}(?:st|nd|rd|th)?(?:,\s*)?(\d{4})\b`, returning the captured
year. -/
def afterMonthWord (a : Array Char) (q : Nat) : Option Int :=
  let q1 := if charAt a q == '.' then q + 1 else q
  let w := spaceRun a q1
  if w = 0 then none
  else
    let j := q1 + w
    firstSome ([2, 1].map fun ld =>
      if digitsAt a j ld then
        firstSome ((ordinalAlts a (j + ld)).map fun k =>
          firstSome ((commaAlts a k).map fun k2 =>
            if digitsAt a k2 4 && boundaryAt a (k2 + 4) then some (numAt a k2 4)
            else none))
      else none)

/-- One attempt of the header pattern
`/\bDate:\s*(?:[A-Za-z]{3,9}\.?\s+\d{1,2}(?:st|nd|rd|th)?(?:,\s*)?(\d{4}))\b/i`
at `i` (`UploadsPage.js` lines 481-483); the month word is greedy from 9
letters down to 3. -/
def tryAnchorHeader (a : Array Char) (i : Nat) : Option Int :=
  if boundaryAt a i && matchCIAt a i dateHeadLit then
    let p := i + 5
    let j := p + spaceRun a p
    let r := letterRun a j
    if r ≥ 3 then
      firstSome ((List.range (min r 9 - 2)).map fun t =>
        afterMonthWord a (j + (min r 9 - t)))
    else none
  else none

/-- One attempt of `/\b(20\d{2})\b/` at `i` (`UploadsPage.js` line 484). -/
def tryBare20xx (a : Array Char) (i : Nat) : Option Int :=
  if boundaryAt a i && charAt a i == '2' && charAt a (i + 1) == '0' &&
     digitsAt a (i + 2) 2 && boundaryAt a (i + 4) then
    some (numAt a i 4)
  else none

/-- The anchor year of `UploadsPage.extractUpcomingFromText` (lines
477-487): scan the first 600 characters for a `Date: <Month> <Day>, <Year>`
header, else for the first bare `20xx` token. -/
def anchorYearOf (text : String) : Option Int :=
  let a := (takeStr 600 text).toList.toArray
  match findFirst (fun i => tryAnchorHeader a i) a.size with
  | some y => some y
  | none => findFirst (fun i => tryBare20xx a i) a.size

/-! ## The `MONTHS` table -/

/-- The `MONTHS` lookup object (identical in both miner variants). -/
def MONTHS : List (String × Int) :=
  [("jan", 1), ("january", 1), ("feb", 2), ("february", 2), ("mar", 3),
   ("march", 3), ("apr", 4), ("april", 4), ("may", 5), ("jun", 6),
   ("june", 6), ("jul", 7), ("july", 7), ("aug", 8), ("august", 8),
   ("sep", 9), ("sept", 9), ("september", 9), ("oct", 10), ("october", 10),
   ("nov", 11), ("november", 11), ("dec", 12), ("december", 12)]

/-- `MONTHS[key]`: association-list lookup. -/
def monthsLookup (k : String) : Option Int :=
  (MONTHS.find? fun p => p.1 == k).map fun p => p.2

/-- `.replace(/\./g, "")` — drop every period (a no-op on the strings the
month regex can capture). -/
def stripDots (s : String) : String :=
  String.mk (s.toList.filter fun c => c ≠ '.')

/-! ## Mined events and the pass bodies -/

/-- An object pushed by the miner loops:
`{title, start_iso: toLocalISO(dt), end_iso: null, description, source}`.
`startMin` is the instant `dt` itself; by construction
`start_iso = toLocalISO startMin` (the string the source stores, used as
the de-duplication key and re-parsed by the UploadsPage sort comparator). -/
structure Ev where
  title : String
  startMin : Int
  start_iso : String
  description : String
  source : String
  deriving DecidableEq, Repr

/-- The push literal shared by every pass of both variants. -/
def mkEv (dt : Int) (m0 : String) : Ev :=
  { title := "Follow-up meeting"
    startMin := dt
    start_iso := toLocalISO dt
    description := "Auto-detected: " ++ m0
    source := m0 }

/-- ISO loop body, Dashboard variant (`Dashboard.js` lines 53-69): default
time 10:00, keep the candidate only if `dt > now` (strict). -/
def isoCandD (now : Int) (m : IsoMatch) : Option Ev :=
  let hh := match m.time with | some t => t.1 | none => 10
  let mm := match m.time with | some t => t.2 | none => 0
  let dt := jsDateMin m.y (m.mo - 1) m.d hh mm
  if now < dt then some (mkEv dt m.m0) else none

/-- ISO loop body, UploadsPage variant (`UploadsPage.js` lines 494-510):
identical except the filter is `dt >= now`. -/
def isoCandU (now : Int) (m : IsoMatch) : Option Ev :=
  let hh := match m.time with | some t => t.1 | none => 10
  let mm := match m.time with | some t => t.2 | none => 0
  let dt := jsDateMin m.y (m.mo - 1) m.d hh mm
  if now ≤ dt then some (mkEv dt m.m0) else none

/-- Slash loop body, Dashboard variant (`Dashboard.js` lines 72-90):
`y = m[3] ? parseInt(m[3]) : currentYear; if (y < 100) y += 2000`. -/
def slashCandD (now : Int) (m : SlashMatch) : Option Ev :=
  let y0 := match m.year with | some v => v | none => yearOfInstant now
  let y := if y0 < 100 then y0 + 2000 else y0
  let dt := jsDateMin y (m.mo - 1) m.d (tbH m.time) (tbM m.time)
  if now < dt then some (mkEv dt m.m0) else none

/-- Slash loop body, UploadsPage variant (`UploadsPage.js` lines 517-542):
the two-digit promotion applies only to an explicit year; a missing year
falls back to the anchor year, then to the current year; filter `dt >= now`. -/
def slashCandU (anchor : Option Int) (now : Int) (m : SlashMatch) : Option Ev :=
  let y := match m.year with
    | some v => if v < 100 then v + 2000 else v
    | none => match anchor with | some av => av | none => yearOfInstant now
  let dt := jsDateMin y (m.mo - 1) m.d (tbH m.time) (tbM m.time)
  if now ≤ dt then some (mkEv dt m.m0) else none

/-- Month-name loop body, Dashboard variant (`Dashboard.js` lines 94-112):
`MONTHS[m[1].toLowerCase().slice(0,3)]`; with no explicit year a date in
the past is retried with the year rolled forward by one
(`dt.setFullYear(dt.getFullYear() + 1)`); filter `dt > now` (strict).
A failed table lookup (impossible for the regex's captures) would give an
invalid date in JS, filtered out — modelled as `none`. -/
def monthCandD (now : Int) (m : MonthMatch) : Option Ev :=
  match monthsLookup (takeStr 3 (lowerStr m.name)) with
  | none => none
  | some mo =>
    let y := match m.year with | some v => v | none => yearOfInstant now
    let dt0 := jsDateMin y (mo - 1) m.day (tbH m.time) (tbM m.time)
    let dt := if m.year = none ∧ dt0 < now then addOneYear dt0 else dt0
    if now < dt then some (mkEv dt m.m0) else none

/-- Month-name loop body, UploadsPage variant (`UploadsPage.js` lines
551-575): `monthMap[m[1].toLowerCase().replace(/\./g, "")]`; year falls
back to anchor then current year; **no** roll-forward; filter `dt >= now`. -/
def monthCandU (anchor : Option Int) (now : Int) (m : MonthMatch) : Option Ev :=
  match monthsLookup (stripDots (lowerStr m.name)) with
  | none => none
  | some mo =>
    let y := match m.year with
      | some v => v
      | none => match anchor with | some av => av | none => yearOfInstant now
    let dt := jsDateMin y (mo - 1) m.day (tbH m.time) (tbM m.time)
    if now ≤ dt then some (mkEv dt m.m0) else none

/-! ## Post-processing: de-duplication, sort, caps -/

/-- The de-duplication loop: a `seen` set of `start_iso` keys, first
occurrence wins (`Dashboard.js` lines 114-120 / `UploadsPage.js` lines
580-586). -/
def dedupGo (seen : List String) : List Ev → List Ev
  | [] => []
  | e :: rest =>
    if e.start_iso ∈ seen then dedupGo seen rest
    else e :: dedupGo (e.start_iso :: seen) rest

/-- De-duplicate by exact `start_iso` equality, first occurrence winning. -/
def dedupByIso (l : List Ev) : List Ev := dedupGo [] l

/-- Stable insertion step for the ascending sort. -/
def insertByStart (e : Ev) : List Ev → List Ev
  | [] => [e]
  | x :: xs => if x.startMin ≤ e.startMin then x :: insertByStart e xs else e :: x :: xs

/-- `dedup.sort((a, b) => new Date(a.start_iso) - new Date(b.start_iso))`
(`UploadsPage.js` line 587): stable ascending sort by the instant each
`start_iso` renders (which is `startMin` by construction). -/
def isortByStart : List Ev → List Ev
  | [] => []
  | x :: xs => insertByStart x (isortByStart xs)

namespace Dashboard

/-- The concatenated pass outputs, in pass order (the `out` array of
`Dashboard.extractUpcomingFromText` after its three loops). -/
def cands (text : String) (now : Int) : List Ev :=
  (isoMatches text).filterMap (isoCandD now) ++
  (slashMatchesD text).filterMap (slashCandD now) ++
  (monthMatchesD text).filterMap (monthCandD now)

/-- `extractUpcomingFromText(text)` of `Dashboard.js` (lines 47-122) with
the ambient clock passed explicitly: empty input short-circuits, then
three passes, de-duplication, and `slice(0, 8)`. -/
def extractUpcomingFromText (text : String) (now : Int) : List Ev :=
  if text = "" then [] else (dedupByIso (cands text now)).take 8

end Dashboard

namespace UploadsPage

/-- The concatenated pass outputs, in pass order, for a given anchor year
(the `out` array of `UploadsPage.extractUpcomingFromText`). -/
def cands (text : String) (now : Int) (anchor : Option Int) : List Ev :=
  (isoMatches text).filterMap (isoCandU now) ++
  (slashMatchesU text).filterMap (slashCandU anchor now) ++
  (monthMatchesU text).filterMap (monthCandU anchor now)

/-- `extractUpcomingFromText(text)` of `UploadsPage.js` (lines 472-589):
anchor-year scan, three passes, de-duplication, ascending sort, and
`slice(0, 12)`. -/
def extractUpcomingFromText (text : String) (now : Int) : List Ev :=
  if text = "" then []
  else (isortByStart (dedupByIso (cands text now (anchorYearOf text)))).take 12

end UploadsPage

/-- Modelled from the spec: the post-processing step as §4.1 words it —
"concatenate all pass outputs in pass order, preserving each pass's
left-to-right match order; de-duplicate by exact `startInstant` equality
(first occurrence wins); truncate to the configured cap". -/
def specPost (cap : Nat) (l : List Ev) : List Ev := (dedupByIso l).take cap

/-! ## Upcoming-items assembly (schedule-suggestion fallback) -/

/-- A backend `schedule_suggestions[]` entry; absent string fields are
embedded as `""` (falsy), an absent `end_iso` as `none`. -/
structure Suggestion where
  title : String
  start_iso : String
  end_iso : Option String
  description : String
  raw_quote : String
  deriving DecidableEq, Repr

/-- An entry of the `upcoming` UI state. -/
structure UpcomingItem where
  title : String
  start_iso : String
  end_iso : Option String
  description : String
  source : String
  deriving DecidableEq, Repr

/-- The normalized summary object both pages read. -/
structure SummaryNorm where
  summary_text : String
  key_points : List String
  decisions : List String
  action_items : List String
  schedule_suggestions : List Suggestion
  deriving DecidableEq, Repr

/-- The verbatim mapping applied to each suggestion
(`Dashboard.js` lines 282-288 / `UploadsPage.js` lines 668-674):
`title || "Follow-up meeting"`, `start_iso || ""`, `end_iso || null`,
`description || raw_quote || ""`, `source = raw_quote || ""`. -/
def sugToItem (it : Suggestion) : UpcomingItem :=
  { title := if it.title = "" then "Follow-up meeting" else it.title
    start_iso := it.start_iso
    end_iso := match it.end_iso with
      | some e => if e = "" then none else some e
      | none => none
    description := if it.description = "" then it.raw_quote else it.description
    source := it.raw_quote }

/-- A mined event viewed as an upcoming item (`end_iso: null` literally). -/
def evToItem (e : Ev) : UpcomingItem :=
  { title := e.title
    start_iso := e.start_iso
    end_iso := none
    description := e.description
    source := e.source }

/-- The newline joiner of the text bundle. -/
def nlLit : String := "\n"

/-- `[summary_text, ...decisions, ...action_items].filter(Boolean).join("\n")`. -/
def bundleOf (s : SummaryNorm) : String :=
  String.intercalate nlLit
    (([s.summary_text] ++ s.decisions ++ s.action_items).filter fun x => x ≠ "")

namespace Dashboard

/-- The upcoming-items decision of `fetchSummary` (`Dashboard.js` lines
280-299; the polling loop of `startSummarize`, lines 357-376, repeats it
verbatim): non-empty `schedule_suggestions` are mapped verbatim, otherwise
the miner runs on the bundled text. -/
def upcomingFromSummary (s : SummaryNorm) (now : Int) : List UpcomingItem :=
  if s.schedule_suggestions ≠ [] then s.schedule_suggestions.map sugToItem
  else (extractUpcomingFromText (bundleOf s) now).map evToItem

end Dashboard

namespace UploadsPage

/-- The upcoming-items decision of `fetchUpcomingFromLatest`
(`UploadsPage.js` lines 663-681). -/
def upcomingFromSummary (s : SummaryNorm) (now : Int) : List UpcomingItem :=
  if s.schedule_suggestions ≠ [] then s.schedule_suggestions.map sugToItem
  else (extractUpcomingFromText (bundleOf s) now).map evToItem

end UploadsPage

/-! ## Draft prefill (CalendarPanel `useEffect`, lines 36-58) -/

/-- Strict parse of a `"YYYY-MM-DDTHH:MM:SS"` local date-time string — the
shape `toLocalISO` produces and `new Date(iso)` reads back in the draft
prefill.  Seconds are validated but dropped: the prefill only ever reads
date, hours, and minutes.  Invalid strings give `none` (JS `Invalid Date`,
turned into empty parts by `isoToParts`). -/
def parseLocalISO (s : String) : Option Int :=
  let a := s.toList.toArray
  if a.size = 19 && digitsAt a 0 4 && charAt a 4 == '-' && digitsAt a 5 2 &&
     charAt a 7 == '-' && digitsAt a 8 2 && charAt a 10 == 'T' &&
     digitsAt a 11 2 && charAt a 13 == ':' && digitsAt a 14 2 &&
     charAt a 16 == ':' && digitsAt a 17 2 then
    let y := numAt a 0 4
    let mo := numAt a 5 2
    let d := numAt a 8 2
    let hh := numAt a 11 2
    let mi := numAt a 14 2
    let ss := numAt a 17 2
    if 1 ≤ mo ∧ mo ≤ 12 ∧ 1 ≤ d ∧ d ≤ daysInMonth y mo ∧ hh ≤ 23 ∧ mi ≤ 59 ∧
       ss ≤ 59 then
      some (daysFromCivil y mo d * 1440 + hh * 60 + mi)
    else none
  else none

/-- Time-of-day of an instant (`getHours`/`getMinutes`). -/
def todOf (t : Int) : Tod :=
  let c := civilFromMin t
  ⟨c.2.2.2.1, c.2.2.2.2⟩

/-- Calendar date of an instant (`getFullYear`/`getMonth`/`getDate`). -/
def calDateOf (t : Int) : CalDate :=
  let c := civilFromMin t
  ⟨c.1, c.2.1, c.2.2.1⟩

/-- `isoToParts(iso)` of `CalendarPanel.jsx` lines 8-16: the date and time
parts of a parseable instant, `none` (= two empty strings) otherwise. -/
def isoToParts (iso : String) : Option (CalDate × Tod) :=
  (parseLocalISO iso).map fun m => (calDateOf m, todOf m)

/-- One draft of the CalendarPanel `useEffect` (lines 38-55): parts of the
start instant; the end defaults to the wall-clock time of start + 60
minutes **on the start's date** (`end = {date: start.date, time: ...}`)
when the item carries no `end_iso`; `Date.now()` (the `now` parameter)
is only the fallback for an unparseable start. -/
def draftFromUpcoming (now : Int) (u : UpcomingItem) : Draft :=
  let start := isoToParts u.start_iso
  let dateF := start.map fun v => v.1
  let startT := start.map fun v => v.2
  let endT : Option Tod :=
    match u.end_iso with
    | some eIso => (isoToParts eIso).map fun v => v.2
    | none =>
      let sMin := match partsToISO dateF startT with | some v => v | none => now
      some (todOf (sMin + 60))
  { title := if u.title = "" then "Follow-up meeting" else u.title
    date := dateF
    start_time := startT
    end_time := endT
    description := u.description }

/-! ## Concrete instants, texts, and fixtures used in the theorems -/

/-- 2025-11-10T09:00, the "now" of the spec's ISO example. -/
def exNowNov10 : Int := civMin 2025 11 10 9 0

/-- 2025-06-15T12:00, a mid-year "now". -/
def exNowJun15 : Int := civMin 2025 6 15 12 0

/-- 2025-01-01T00:00. -/
def exNowJan1 : Int := civMin 2025 1 1 0 0

/-- 2025-06-15T10:00 — an instant a mined date can hit exactly. -/
def exNowEq : Int := civMin 2025 6 15 10 0

/-- The spec's ISO-pass example text. -/
def exIsoText : String := "Lets reconvene on 2025-12-01"

/-- The matched substring of `exIsoText`. -/
def exIsoSrc : String := "2025-12-01"

/-- A year-less month-name mention resolving to the past at `exNowJun15`. -/
def exMarchText : String := "March 1"

/-- An ISO date-time equal to `exNowEq` on the dot. -/
def exEqNowText : String := "2025-06-15 10:00"

/-- Two ISO dates in anti-chronological text order. -/
def exTwoIsoText : String := "2025-12-01 2025-11-20"

/-- Nine distinct ISO dates, in text order. -/
def exNineIsoText : String :=
  "2025-12-01 2025-12-02 2025-12-03 2025-12-04 2025-12-05 2025-12-06 2025-12-07 2025-12-08 2025-12-09"

/-- Twenty distinct ISO dates, in text order. -/
def exTwentyIsoText : String :=
  "2025-12-01 2025-12-02 2025-12-03 2025-12-04 2025-12-05 2025-12-06 2025-12-07 2025-12-08 2025-12-09 2025-12-10 2025-12-11 2025-12-12 2025-12-13 2025-12-14 2025-12-15 2025-12-16 2025-12-17 2025-12-18 2025-12-19 2025-12-20"

/-- An out-of-range calendar day in ISO shape. -/
def exOverflowDate : String := "2025-02-31"

/-- An ISO date followed by an out-of-range 24-hour time. -/
def exOverflowTime : String := "2025-12-01 99:30"

/-- The spec's bare-hour examples. -/
def exCheckIn : String := "check in at 9"

/-- See `exCheckIn`. -/
def exSync : String := "sync at 2"

/-- The rollover example draft: `{date: 2025-12-01, start: 22:00, end: 01:00}`. -/
def exRolloverDraft : Draft :=
  { title := "Follow-up meeting"
    date := some ⟨2025, 12, 1⟩
    start_time := some ⟨22, 0⟩
    end_time := some ⟨1, 0⟩
    description := "" }

/-- The missing-end example draft: `{date: 2025-12-01, start: 10:00, end: ""}`. -/
def exMissingEndDraft : Draft :=
  { title := "Standup"
    date := some ⟨2025, 12, 1⟩
    start_time := some ⟨10, 0⟩
    end_time := none
    description := "" }

/-- A fully valid one-hour draft. -/
def exOkDraft : Draft :=
  { title := "Standup"
    date := some ⟨2025, 12, 1⟩
    start_time := some ⟨10, 0⟩
    end_time := some ⟨11, 0⟩
    description := "" }

/-- The payload `exOkDraft` resolves to. -/
def exOkPayload : Payload :=
  { title := "Standup"
    description := ""
    start_iso := civMin 2025 12 1 10 0
    end_iso := civMin 2025 12 1 11 0 }

/-- An extracted event starting at 23:30 (no explicit end). -/
def exLateItem : UpcomingItem :=
  { title := "", start_iso := "2025-12-01T23:30:00", end_iso := none
    description := "", source := "" }

/-- An extracted event starting at 10:00 (no explicit end). -/
def exMorningItem : UpcomingItem :=
  { title := "", start_iso := "2025-12-01T10:00:00", end_iso := none
    description := "", source := "" }

/-- A backend schedule suggestion. -/
def exSuggestion : Suggestion :=
  { title := "Sprint review"
    start_iso := "2025-12-01T10:00:00"
    end_iso := none
    description := "review the sprint"
    raw_quote := "we will review the sprint" }

/-- A summary carrying a non-empty `schedule_suggestions` array whose text
fields also contain a minable date. -/
def exSummaryWith : SummaryNorm :=
  { summary_text := "Lets reconvene on 2025-12-01"
    key_points := []
    decisions := []
    action_items := []
    schedule_suggestions := [exSuggestion] }

/-- The same summary with no suggestions. -/
def exSummaryWithout : SummaryNorm :=
  { summary_text := "Lets reconvene on 2025-12-01"
    key_points := []
    decisions := []
    action_items := []
    schedule_suggestions := [] }

/-- The `March 1` month-name match as the UploadsPage recognizer emits it. -/
def exMarchMatch : MonthMatch :=
  { name := "March", day := 1, year := none, time := none, m0 := "March 1" }

/-- The ninth ISO match of `exNineIsoText`. -/
def exNinthMatch : IsoMatch :=
  { y := 2025, mo := 12, d := 9, time := none, m0 := "2025-12-09" }

/-- The single ISO match of `exIsoText`. -/
def exIsoMatch : IsoMatch :=
  { y := 2025, mo := 12, d := 1, time := none, m0 := "2025-12-01" }

/-! ## Helper lemmas: de-duplication, sorting, pass guards -/

theorem mem_of_mem_dedupGo {x : Ev} :
    ∀ (seen : List String) (l : List Ev), x ∈ dedupGo seen l → x ∈ l := by
  intro seen l
  induction l generalizing seen with
  | nil => simp [dedupGo]
  | cons e rest ih =>
    intro h
    by_cases hs : e.start_iso ∈ seen
    · simp only [dedupGo, if_pos hs] at h
      exact List.mem_cons_of_mem _ (ih _ h)
    · simp only [dedupGo, if_neg hs, List.mem_cons] at h
      rcases h with h | h
      · exact h ▸ List.mem_cons_self _ _
      · exact List.mem_cons_of_mem _ (ih _ h)

theorem countP_dedupGo_of_seen (k : String) :
    ∀ (seen : List String) (l : List Ev), k ∈ seen →
      (dedupGo seen l).countP (fun e => e.start_iso == k) = 0 := by
  intro seen l
  induction l generalizing seen with
  | nil => intro _; simp [dedupGo]
  | cons e rest ih =>
    intro hk
    by_cases hs : e.start_iso ∈ seen
    · simpa only [dedupGo, if_pos hs] using ih seen hk
    · have hne : e.start_iso ≠ k := fun heq => hs (heq ▸ hk)
      simp only [dedupGo, if_neg hs, List.countP_cons, beq_iff_eq, hne,
        if_false, add_zero]
      exact ih (e.start_iso :: seen) (List.mem_cons_of_mem _ hk)

theorem countP_dedupGo_le_one (k : String) :
    ∀ (seen : List String) (l : List Ev),
      (dedupGo seen l).countP (fun e => e.start_iso == k) ≤ 1 := by
  intro seen l
  induction l generalizing seen with
  | nil => simp [dedupGo]
  | cons e rest ih =>
    by_cases hs : e.start_iso ∈ seen
    · simpa only [dedupGo, if_pos hs] using ih seen
    · simp only [dedupGo, if_neg hs, List.countP_cons, beq_iff_eq]
      by_cases hk : e.start_iso = k
      · rw [hk, if_pos rfl,
          countP_dedupGo_of_seen k (k :: seen) rest (List.mem_cons_self _ _)]
      · rw [if_neg hk, add_zero]
        exact ih (e.start_iso :: seen)

theorem countP_dedupGo_eq_one (k : String) :
    ∀ (seen : List String) (l : List Ev), k ∉ seen →
      (∃ e ∈ l, e.start_iso = k) →
      (dedupGo seen l).countP (fun e => e.start_iso == k) = 1 := by
  intro seen l
  induction l generalizing seen with
  | nil => intro _ hex; simp at hex
  | cons e rest ih =>
    intro hk hex
    by_cases hs : e.start_iso ∈ seen
    · simp only [dedupGo, if_pos hs]
      rcases hex with ⟨w, hw, hwk⟩
      rcases List.mem_cons.mp hw with hw | hw
      · rw [hw] at hwk
        exact absurd (hwk ▸ hs) hk
      · exact ih seen hk ⟨w, hw, hwk⟩
    · simp only [dedupGo, if_neg hs, List.countP_cons, beq_iff_eq]
      by_cases hek : e.start_iso = k
      · rw [hek, if_pos rfl,
          countP_dedupGo_of_seen k (k :: seen) rest (List.mem_cons_self _ _)]
      · rw [if_neg hek, add_zero]
        rcases hex with ⟨w, hw, hwk⟩
        rcases List.mem_cons.mp hw with hw | hw
        · exact absurd (hw ▸ hwk) hek
        · have hk2 : k ∉ e.start_iso :: seen := by
            intro h
            rcases List.mem_cons.mp h with h | h
            · exact hek h.symm
            · exact hk h
          exact ih (e.start_iso :: seen) hk2 ⟨w, hw, hwk⟩

theorem mem_of_mem_insertByStart {x e : Ev} :
    ∀ l : List Ev, x ∈ insertByStart e l → x = e ∨ x ∈ l := by
  intro l
  induction l with
  | nil => intro h; simp only [insertByStart, List.mem_singleton] at h; exact Or.inl h
  | cons y ys ih =>
    intro h
    by_cases hc : y.startMin ≤ e.startMin
    · simp only [insertByStart, if_pos hc, List.mem_cons] at h
      rcases h with h | h
      · exact Or.inr (List.mem_cons.mpr (Or.inl h))
      · rcases ih h with h | h
        · exact Or.inl h
        · exact Or.inr (List.mem_cons_of_mem _ h)
    · simp only [insertByStart, if_neg hc, List.mem_cons] at h
      rcases h with h | h
      · exact Or.inl h
      · exact Or.inr (List.mem_cons.mpr h)

theorem mem_of_mem_isortByStart {x : Ev} :
    ∀ l : List Ev, x ∈ isortByStart l → x ∈ l := by
  intro l
  induction l with
  | nil => simp [isortByStart]
  | cons y ys ih =>
    intro h
    rcases mem_of_mem_insertByStart _ h with h | h
    · exact h ▸ List.mem_cons_self _ _
    · exact List.mem_cons_of_mem _ (ih h)

theorem of_ite_mkEv {c : Prop} [Decidable c] {dt : Int} {m0 : String} {e : Ev}
    (h : (if c then some (mkEv dt m0) else none) = some e) : c ∧ e = mkEv dt m0 := by
  split at h
  · exact ⟨by assumption, (Option.some.inj h).symm⟩
  · cases h

theorem isoCandD_lt {now : Int} {m : IsoMatch} {e : Ev}
    (h : isoCandD now m = some e) : now < e.startMin := by
  unfold isoCandD at h
  rcases of_ite_mkEv h with ⟨hlt, he⟩
  rw [he]
  exact hlt

theorem slashCandD_lt {now : Int} {m : SlashMatch} {e : Ev}
    (h : slashCandD now m = some e) : now < e.startMin := by
  unfold slashCandD at h
  rcases of_ite_mkEv h with ⟨hlt, he⟩
  rw [he]
  exact hlt

theorem monthCandD_lt {now : Int} {m : MonthMatch} {e : Ev}
    (h : monthCandD now m = some e) : now < e.startMin := by
  unfold monthCandD at h
  rcases hlk : monthsLookup (takeStr 3 (lowerStr m.name)) with _ | mo <;> rw [hlk] at h
  · exact Option.noConfusion h
  · rcases of_ite_mkEv h with ⟨hlt, he⟩
    rw [he]
    exact hlt

theorem isoCandU_le {now : Int} {m : IsoMatch} {e : Ev}
    (h : isoCandU now m = some e) : now ≤ e.startMin := by
  unfold isoCandU at h
  rcases of_ite_mkEv h with ⟨hlt, he⟩
  rw [he]
  exact hlt

theorem slashCandU_le {anchor : Option Int} {now : Int} {m : SlashMatch} {e : Ev}
    (h : slashCandU anchor now m = some e) : now ≤ e.startMin := by
  unfold slashCandU at h
  rcases of_ite_mkEv h with ⟨hlt, he⟩
  rw [he]
  exact hlt

theorem monthCandU_le {anchor : Option Int} {now : Int} {m : MonthMatch} {e : Ev}
    (h : monthCandU anchor now m = some e) : now ≤ e.startMin := by
  unfold monthCandU at h
  rcases hlk : monthsLookup (stripDots (lowerStr m.name)) with _ | mo <;> rw [hlk] at h
  · exact Option.noConfusion h
  · rcases of_ite_mkEv h with ⟨hlt, he⟩
    rw [he]
    exact hlt

theorem mem_candsD_lt {t : String} {now : Int} {e : Ev}
    (h : e ∈ Dashboard.cands t now) : now < e.startMin := by
  unfold Dashboard.cands at h
  rcases List.mem_append.mp h with h | h
  · rcases List.mem_append.mp h with h | h
    · rcases List.mem_filterMap.mp h with ⟨m, _, hc⟩
      exact isoCandD_lt hc
    · rcases List.mem_filterMap.mp h with ⟨m, _, hc⟩
      exact slashCandD_lt hc
  · rcases List.mem_filterMap.mp h with ⟨m, _, hc⟩
    exact monthCandD_lt hc

theorem mem_candsU_le {t : String} {now : Int} {anchor : Option Int} {e : Ev}
    (h : e ∈ UploadsPage.cands t now anchor) : now ≤ e.startMin := by
  unfold UploadsPage.cands at h
  rcases List.mem_append.mp h with h | h
  · rcases List.mem_append.mp h with h | h
    · rcases List.mem_filterMap.mp h with ⟨m, _, hc⟩
      exact isoCandU_le hc
    · rcases List.mem_filterMap.mp h with ⟨m, _, hc⟩
      exact slashCandU_le hc
  · rcases List.mem_filterMap.mp h with ⟨m, _, hc⟩
    exact monthCandU_le hc

/-! ## Claim theorems -/

/-- C1 (DraftReconciler rollover rule).  The claim says a same-day
`end ≤ start` combination is reinterpreted as `date + 1 day` at the
*end's* wall-clock time, so that `{date: 2025-12-01, startTime: 22:00,
endTime: 01:00}` emits `end = 2025-12-02T01:00:00`.  The code instead
builds the new end from a copy of the *start* (`e = new Date(start_iso);
e.setDate(e.getDate() + 1)`), discarding the end's wall-clock time: at the
claim's own example the emitted end is `2025-12-02T22:00:00` — start plus
exactly one day — which differs from the claimed `2025-12-02T01:00:00`. -/
theorem C1_rollover_end_is_start_plus_day :
    createFromDraft exRolloverDraft =
      .ok { title := "Follow-up meeting"
            description := ""
            start_iso := civMin 2025 12 1 22 0
            end_iso := civMin 2025 12 2 22 0 } ∧
    civMin 2025 12 2 22 0 ≠ civMin 2025 12 2 1 0 := by
  decide

/-- C2 (payload invariant).  For every draft that passes both validation
checks, the payload `createFromDraft` submits satisfies
`endInstant > startInstant` strictly, whatever end time the user entered:
an end at or before the start is replaced by start + 1 day. -/
theorem C2_end_after_start :
    ∀ (d : Draft) (p : Payload),
      createFromDraft d = .ok p → p.start_iso < p.end_iso := by
  intro d p h
  unfold createFromDraft at h
  rcases h1 : partsToISO d.date d.start_time with _ | s <;> rw [h1] at h
  · cases h
  · rcases h2 : partsToISO d.date d.end_time with _ | e0 <;> rw [h2] at h
    · cases h
    · cases h
      by_cases hle : e0 ≤ s
      · simp only [if_pos hle]
        omega
      · simp only [if_neg hle]
        omega

/-- Witness for C2 at the concrete one-hour draft `exOkDraft`. -/
theorem C2_witness : exOkPayload.start_iso < exOkPayload.end_iso :=
  C2_end_after_start exOkDraft exOkPayload (by decide)

/-- C6 (fail-fast ordered validation).  If date and start time do not
combine into a parseable date-time, `createFromDraft` reports the invalid
start; otherwise, if the end time combined with the same date is not
parseable, it reports the invalid end; in particular a draft with a valid
date and start time but an empty end time yields the invalid-end error. -/
theorem C6_validation_order :
    (∀ d : Draft, partsToISO d.date d.start_time = none →
        createFromDraft d = .err .invalidStart) ∧
    (∀ (d : Draft) (s : Int), partsToISO d.date d.start_time = some s →
        partsToISO d.date d.end_time = none →
        createFromDraft d = .err .invalidEnd) ∧
    createFromDraft exMissingEndDraft = .err .invalidEnd := by
  refine ⟨?_, ?_, by decide⟩
  · intro d h
    unfold createFromDraft
    rw [h]
  · intro d s h1 h2
    unfold createFromDraft
    rw [h1, h2]

/-- Witness for C6: both validation implications discharged at concrete
drafts (an all-empty draft for the start check, `exMissingEndDraft` for
the end check). -/
theorem C6_witness :
    createFromDraft { title := "", date := none, start_time := none,
                      end_time := none, description := "" } =
      .err .invalidStart ∧
    createFromDraft exMissingEndDraft = .err .invalidEnd :=
  ⟨C6_validation_order.1 _ (by decide),
   C6_validation_order.2.1 exMissingEndDraft (civMin 2025 12 1 10 0)
     (by decide) (by decide)⟩

/-- C5 (12/24-hour disambiguation).  With an `am`/`pm` suffix the standard
12-hour conversion applies (`pm` and hour < 12 adds 12, `am` and hour 12
gives 0, all other suffixed hours unchanged); with no suffix an hour ≤ 7
gains 12 and an hour > 7 is kept; hence `"check in at 9"` parses to 09:00
and `"sync at 2"` to 14:00. -/
theorem C5_time_heuristic :
    (∀ h : Int, h < 12 → applyTimeHeuristic h (some .pm) = h + 12) ∧
    applyTimeHeuristic 12 (some .am) = 0 ∧
    (∀ h : Int, 12 ≤ h → applyTimeHeuristic h (some .pm) = h) ∧
    (∀ h : Int, h ≠ 12 → applyTimeHeuristic h (some .am) = h) ∧
    (∀ h : Int, h ≤ 7 → applyTimeHeuristic h none = h + 12) ∧
    (∀ h : Int, 7 < h → applyTimeHeuristic h none = h) ∧
    parseTimeBits exCheckIn = some { h24 := 9, m := 0 } ∧
    parseTimeBits exSync = some { h24 := 14, m := 0 } := by
  refine ⟨?_, by decide, ?_, ?_, ?_, ?_, by decide, by decide⟩
  · intro h hh
    simp [applyTimeHeuristic, hh]
  · intro h hh
    have hn : ¬h < 12 := not_lt.mpr hh
    simp [applyTimeHeuristic, hn]
  · intro h hh
    simp [applyTimeHeuristic, hh]
  · intro h hh
    simp [applyTimeHeuristic, hh]
  · intro h hh
    have hn : ¬h ≤ 7 := not_le.mpr hh
    simp [applyTimeHeuristic, hn]

/-- Witness for C5: the four hypothetical conversion rules at concrete
hours. -/
theorem C5_witness :
    applyTimeHeuristic 2 (some .pm) = 2 + 12 ∧
    applyTimeHeuristic 9 (some .am) = 9 ∧
    applyTimeHeuristic 2 none = 2 + 12 ∧
    applyTimeHeuristic 9 none = 9 :=
  ⟨C5_time_heuristic.1 2 (by decide),
   C5_time_heuristic.2.2.2.1 9 (by decide),
   C5_time_heuristic.2.2.2.2.1 2 (by decide),
   C5_time_heuristic.2.2.2.2.2.1 9 (by decide)⟩

/-- C8 (suggestions-first fallback contract).  In both pages, a non-empty
`schedule_suggestions` array is mapped verbatim into the upcoming list and
the miner's result does not enter it (the output is the same for every
summary sharing those suggestions, whatever its text fields); the miner
runs exactly when the array is empty. -/
theorem C8_suggestions_before_miner :
    (∀ (s : SummaryNorm) (now : Int), s.schedule_suggestions ≠ [] →
        Dashboard.upcomingFromSummary s now =
          s.schedule_suggestions.map sugToItem) ∧
    (∀ (s : SummaryNorm) (now : Int), s.schedule_suggestions = [] →
        Dashboard.upcomingFromSummary s now =
          (Dashboard.extractUpcomingFromText (bundleOf s) now).map evToItem) ∧
    (∀ (s : SummaryNorm) (now : Int), s.schedule_suggestions ≠ [] →
        UploadsPage.upcomingFromSummary s now =
          s.schedule_suggestions.map sugToItem) ∧
    (∀ (s : SummaryNorm) (now : Int), s.schedule_suggestions = [] →
        UploadsPage.upcomingFromSummary s now =
          (UploadsPage.extractUpcomingFromText (bundleOf s) now).map evToItem) := by
  refine ⟨?_, ?_, ?_, ?_⟩ <;> intro s now h
  · simp [Dashboard.upcomingFromSummary, h]
  · simp [Dashboard.upcomingFromSummary, h]
  · simp [UploadsPage.upcomingFromSummary, h]
  · simp [UploadsPage.upcomingFromSummary, h]

/-- Witness for C8: a summary with one suggestion keeps it verbatim even
though its text also contains a minable date; the same summary without
suggestions falls back to the miner. -/
theorem C8_witness :
    Dashboard.upcomingFromSummary exSummaryWith exNowNov10 =
      [sugToItem exSuggestion] ∧
    Dashboard.upcomingFromSummary exSummaryWithout exNowNov10 =
      (Dashboard.extractUpcomingFromText (bundleOf exSummaryWithout)
        exNowNov10).map evToItem :=
  ⟨C8_suggestions_before_miner.1 exSummaryWith exNowNov10 (by decide),
   C8_suggestions_before_miner.2.1 exSummaryWithout exNowNov10 rfl⟩

/-- C10 (no range validation; calendar normalization).  The recognizer
passes keep out-of-range numeric components and the date constructor
carries the overflow: `"2025-02-31"` is emitted as 2025-03-03T10:00 and an
ISO date followed by the out-of-range time `"99:30"` is emitted with the
99 hours carried over four days, rather than either fragment being
skipped. -/
theorem C10_overflow_normalized :
    Dashboard.extractUpcomingFromText exOverflowDate exNowJan1 =
      [mkEv (civMin 2025 3 3 10 0) exOverflowDate] ∧
    Dashboard.extractUpcomingFromText exOverflowTime exNowNov10 =
      [mkEv (civMin 2025 12 5 3 30) exOverflowTime] := by
  decide

/-- C9 (default 60-minute duration), amended.  A draft built from an
extracted event with no explicit end is pre-filled with
`endTime = wall-clock time of startTime + 60 minutes` on the same date;
`resolve` then emits exactly `start + 60` minutes — *provided* the start's
time of day is before 23:00.  (At 23:00 or later the pre-filled end wraps
past midnight on the same date, so the rollover rule does trigger; see the
counterexample.) -/
theorem C9_default_duration :
    (∀ (now : Int) (u : UpcomingItem) (s : Int),
        parseLocalISO u.start_iso = some s → u.end_iso = none →
        partsToISO (some (calDateOf s)) (some (todOf s)) = some s →
        (draftFromUpcoming now u).date = some (calDateOf s) ∧
        (draftFromUpcoming now u).start_time = some (todOf s) ∧
        (draftFromUpcoming now u).end_time = some (todOf (s + 60))) ∧
    (∀ (d : Draft) (s : Int),
        partsToISO d.date d.start_time = some s →
        d.end_time = some (todOf (s + 60)) →
        s % 1440 < 1380 →
        createFromDraft d =
          .ok { title := trimStr (if d.title = "" then "Follow-up meeting" else d.title)
                description := d.description
                start_iso := s
                end_iso := s + 60 }) := by
  constructor
  · intro now u s h1 h2 h3
    refine ⟨?_, ?_, ?_⟩ <;> simp [draftFromUpcoming, isoToParts, h1, h2, h3]
  · intro d s h1 h2 hlt
    have h1' := h1
    rcases hd : d.date with _ | dt <;> rw [hd] at h1
    · simp [partsToISO] at h1
    · rcases ht : d.start_time with _ | tt <;> rw [ht] at h1
      · simp [partsToISO] at h1
      · simp only [partsToISO] at h1
        split at h1
        · rename_i hc
          have hs : daysFromCivil dt.y dt.m dt.d * 1440 + tt.hh * 60 + tt.mi = s :=
            Option.some.inj h1
          obtain ⟨hy0, hy1, hm0, hm1, hd0, hd1, hh0, hh1, hmi0, hmi1⟩ := hc
          have hr : s % 1440 = tt.hh * 60 + tt.mi := by omega
          have hrlt : tt.hh * 60 + tt.mi < 1380 := by omega
          have hEnd : partsToISO d.date d.end_time = some (s + 60) := by
            rw [hd, h2]
            have e1 : (s + 60) % 1440 = tt.hh * 60 + tt.mi + 60 := by omega
            simp only [partsToISO, todOf, civilFromMin, e1]
            rw [if_pos]
            · congr 1
              omega
            · refine ⟨hy0, hy1, hm0, hm1, hd0, hd1, ?_, ?_, ?_, ?_⟩ <;> omega
          unfold createFromDraft
          rw [h1', hEnd]
          dsimp only
          rw [if_neg (by omega : ¬s + 60 ≤ s)]
        · cases h1

/-- Counterexample for C9: the draft prefilled from an extracted event
starting 2025-12-01T23:30 (no explicit end) gets `endTime = 00:30` on the
*same* date, so the same-day end combination lands before the start and
`createFromDraft` does apply the rollover rule — the submitted end is
start + 1 day, not start + 60 minutes, contradicting the claim that this
case never triggers the rollover. -/
theorem C9_counterexample :
    (draftFromUpcoming 0 exLateItem).end_time = some { hh := 0, mi := 30 } ∧
    partsToISO (draftFromUpcoming 0 exLateItem).date
        (draftFromUpcoming 0 exLateItem).end_time =
      some (civMin 2025 12 1 0 30) ∧
    civMin 2025 12 1 0 30 ≤ civMin 2025 12 1 23 30 ∧
    createFromDraft (draftFromUpcoming 0 exLateItem) =
      .ok { title := "Follow-up meeting"
            description := ""
            start_iso := civMin 2025 12 1 23 30
            end_iso := civMin 2025 12 2 23 30 } ∧
    civMin 2025 12 2 23 30 ≠ civMin 2025 12 1 23 30 + 60 := by
  decide

/-- Witness for C9 at a 10:00 start: the prefill and the resolved
60-minute payload. -/
theorem C9_witness :
    (draftFromUpcoming 0 exMorningItem).end_time =
      some (todOf (civMin 2025 12 1 10 0 + 60)) ∧
    createFromDraft (draftFromUpcoming 0 exMorningItem) =
      .ok { title := trimStr (if (draftFromUpcoming 0 exMorningItem).title = ""
                              then "Follow-up meeting"
                              else (draftFromUpcoming 0 exMorningItem).title)
            description := (draftFromUpcoming 0 exMorningItem).description
            start_iso := civMin 2025 12 1 10 0
            end_iso := civMin 2025 12 1 10 0 + 60 } :=
  ⟨(C9_default_duration.1 0 exMorningItem (civMin 2025 12 1 10 0)
      (by decide) rfl (by decide)).2.2,
   C9_default_duration.2 (draftFromUpcoming 0 exMorningItem)
      (civMin 2025 12 1 10 0) (by decide) (by decide) (by decide)⟩

/-- C3 (after-now filter and the year roll-forward exception), amended.
In the Dashboard miner every emitted event starts strictly after `now`,
and a year-less month-name match resolving before `now` is retried with
the year rolled forward by one and emitted exactly when the rolled date is
still strictly after `now`.  In the anchored (UploadsPage) variant the
filter is `startInstant ≥ now` (an event exactly at `now` is kept), and a
year-less, anchor-less month-name match resolving before `now` is simply
discarded — that variant has no roll-forward. -/
theorem C3_after_now_filter :
    (∀ (t : String) (now : Int) (e : Ev),
        e ∈ Dashboard.extractUpcomingFromText t now → now < e.startMin) ∧
    (∀ (now : Int) (m : MonthMatch) (mo : Int),
        monthsLookup (takeStr 3 (lowerStr m.name)) = some mo → m.year = none →
        jsDateMin (yearOfInstant now) (mo - 1) m.day (tbH m.time) (tbM m.time) < now →
        monthCandD now m =
          if now < addOneYear (jsDateMin (yearOfInstant now) (mo - 1) m.day
              (tbH m.time) (tbM m.time)) then
            some (mkEv (addOneYear (jsDateMin (yearOfInstant now) (mo - 1) m.day
              (tbH m.time) (tbM m.time))) m.m0)
          else none) ∧
    (∀ (t : String) (now : Int) (e : Ev),
        e ∈ UploadsPage.extractUpcomingFromText t now → now ≤ e.startMin) ∧
    (∀ (now : Int) (m : MonthMatch) (mo : Int),
        monthsLookup (stripDots (lowerStr m.name)) = some mo → m.year = none →
        jsDateMin (yearOfInstant now) (mo - 1) m.day (tbH m.time) (tbM m.time) < now →
        monthCandU none now m = none) := by
  refine ⟨?_, ?_, ?_, ?_⟩
  · intro t now e h
    unfold Dashboard.extractUpcomingFromText at h
    split at h
    · cases h
    · exact mem_candsD_lt (mem_of_mem_dedupGo [] _ (List.take_subset _ _ h))
  · intro now m mo hlk hy hlt
    unfold monthCandD
    rw [hlk, hy]
    dsimp only
    rw [if_pos (And.intro rfl hlt)]
  · intro t now e h
    unfold UploadsPage.extractUpcomingFromText at h
    by_cases h0 : t = ""
    · rw [if_pos h0] at h
      cases h
    · rw [if_neg h0] at h
      exact mem_candsU_le (mem_of_mem_dedupGo [] _
        (mem_of_mem_isortByStart _ (List.take_subset _ _ h)))
  · intro now m mo hlk hy hlt
    unfold monthCandU
    rw [hlk, hy]
    dsimp only
    rw [if_neg (not_le.mpr hlt)]

/-- Counterexample for C3: `"March 1"` carries no year, the text has no
anchor year, and March 1 of the current year lies before
`now = 2025-06-15T12:00`; the claim says the year is rolled forward and
next year's occurrence emitted, but the UploadsPage miner returns the
empty list — the match is discarded. -/
theorem C3_counterexample :
    exMarchMatch ∈ monthMatchesU exMarchText ∧
    exMarchMatch.year = none ∧
    anchorYearOf exMarchText = none ∧
    jsDateMin (yearOfInstant exNowJun15) 2 1 10 0 < exNowJun15 ∧
    UploadsPage.extractUpcomingFromText exMarchText exNowJun15 = [] := by
  decide

/-- Witness for C3: its four parts discharged at concrete inputs — a
mined Dashboard event after `now`, the Dashboard roll-forward of
`"March 1"`, an UploadsPage event exactly at `now`, and the UploadsPage
discard of `"March 1"`. -/
theorem C3_witness :
    exNowNov10 < (mkEv (civMin 2025 12 1 10 0) exIsoSrc).startMin ∧
    monthCandD exNowJun15 exMarchMatch =
      some (mkEv (addOneYear (civMin 2025 3 1 10 0)) exMarchText) ∧
    exNowEq ≤ (mkEv exNowEq exEqNowText).startMin ∧
    monthCandU none exNowJun15 exMarchMatch = none := by
  refine ⟨?_, ?_, ?_, ?_⟩
  · exact C3_after_now_filter.1 exIsoText exNowNov10 _ (by decide)
  · have h := C3_after_now_filter.2.1 exNowJun15 exMarchMatch 3 (by decide) rfl
      (by decide)
    rw [h, if_pos (by decide)]
    decide
  · exact C3_after_now_filter.2.2.1 exEqNowText exNowEq _ (by decide)
  · exact C3_after_now_filter.2.2.2 exNowJun15 exMarchMatch 3 (by decide) rfl
      (by decide)

set_option maxRecDepth 8000 in
/-- C4 (post-processing), amended.  The Dashboard miner is exactly the
spec's construct: pass outputs concatenated in pass order, de-duplicated
by start-instant key with the first occurrence winning, truncated to 8 —
for a text with 20 distinct dates the 8 retained are the first per pass
order.  The anchored (UploadsPage) variant inserts an ascending sort by
start instant between de-duplication and the cap of 12, so its output is
in chronological order and its retained entries are the chronologically
earliest, not the first in pass order. -/
theorem C4_postprocessing :
    (∀ (t : String) (now : Int),
        Dashboard.extractUpcomingFromText t now =
          if t = "" then [] else specPost 8 (Dashboard.cands t now)) ∧
    (∀ (t : String) (now : Int),
        UploadsPage.extractUpcomingFromText t now =
          if t = "" then []
          else (isortByStart (dedupByIso
            (UploadsPage.cands t now (anchorYearOf t)))).take 12) ∧
    (Dashboard.extractUpcomingFromText exTwentyIsoText exNowNov10).map
        (fun e => e.startMin) =
      [civMin 2025 12 1 10 0, civMin 2025 12 2 10 0, civMin 2025 12 3 10 0,
       civMin 2025 12 4 10 0, civMin 2025 12 5 10 0, civMin 2025 12 6 10 0,
       civMin 2025 12 7 10 0, civMin 2025 12 8 10 0] := by
  refine ⟨fun t now => rfl, fun t now => rfl, by decide⟩

/-- Counterexample for C4: on a text whose two ISO dates appear in
anti-chronological order, the UploadsPage miner's output differs from the
claimed concatenate-dedup-truncate construct — the sort reorders it. -/
theorem C4_counterexample :
    UploadsPage.extractUpcomingFromText exTwoIsoText exNowNov10 ≠
      specPost 12 (UploadsPage.cands exTwoIsoText exNowNov10
        (anchorYearOf exTwoIsoText)) := by
  decide

/-- C7 (ISO default time and uniqueness), amended.  The result never
contains two events with the same rendered start instant; for an ISO
match without explicit time whose 10:00 start lies after `now`, the
result contains exactly one event at that instant *provided* the
de-duplicated candidate list does not exceed the cap of 8 (with more than
8 distinct instants a later match can be dropped — see the
counterexample); the spec's concrete example holds verbatim. -/
theorem C7_iso_unique_ten :
    (∀ (t : String) (now : Int) (k : String),
        (Dashboard.extractUpcomingFromText t now).countP
          (fun e => e.start_iso == k) ≤ 1) ∧
    (∀ (t : String) (now : Int) (m : IsoMatch),
        m ∈ isoMatches t → m.time = none →
        now < jsDateMin m.y (m.mo - 1) m.d 10 0 →
        (dedupByIso (Dashboard.cands t now)).length ≤ 8 →
        (Dashboard.extractUpcomingFromText t now).countP
          (fun e => e.start_iso ==
            toLocalISO (jsDateMin m.y (m.mo - 1) m.d 10 0)) = 1) ∧
    Dashboard.extractUpcomingFromText exIsoText exNowNov10 =
      [mkEv (civMin 2025 12 1 10 0) exIsoSrc] := by
  refine ⟨?_, ?_, by decide⟩
  · intro t now k
    unfold Dashboard.extractUpcomingFromText
    split
    · simp
    · exact le_trans ((List.take_sublist _ _).countP_le _)
        (countP_dedupGo_le_one k [] _)
  · intro t now m hm ht hlt hlen
    unfold Dashboard.extractUpcomingFromText
    split
    · rename_i h0
      rw [h0] at hm
      have hempty : isoMatches "" = [] := rfl
      rw [hempty] at hm
      cases hm
    · rw [List.take_of_length_le hlen]
      unfold dedupByIso
      apply countP_dedupGo_eq_one
      · simp
      · refine ⟨mkEv (jsDateMin m.y (m.mo - 1) m.d 10 0) m.m0, ?_, rfl⟩
        unfold Dashboard.cands
        apply List.mem_append_left
        apply List.mem_append_left
        apply List.mem_filterMap.mpr
        refine ⟨m, hm, ?_⟩
        unfold isoCandD
        rw [ht]
        dsimp only
        rw [if_pos hlt]

/-- Counterexample for C7: with nine future ISO dates the ninth match is a
valid, future, time-less ISO match, yet the result (capped at 8) contains
no event at its 10:00 instant — not "exactly one". -/
theorem C7_counterexample :
    exNinthMatch ∈ isoMatches exNineIsoText ∧
    exNinthMatch.time = none ∧
    exNowNov10 < jsDateMin 2025 (12 - 1) 9 10 0 ∧
    (Dashboard.extractUpcomingFromText exNineIsoText exNowNov10).countP
      (fun e => e.start_iso == toLocalISO (jsDateMin 2025 (12 - 1) 9 10 0)) = 0 := by
  decide

/-- Witness for C7: both counting parts discharged at the spec's example
text. -/
theorem C7_witness :
    (Dashboard.extractUpcomingFromText exIsoText exNowNov10).countP
      (fun e => e.start_iso == toLocalISO (jsDateMin 2025 (12 - 1) 1 10 0)) = 1 ∧
    (Dashboard.extractUpcomingFromText exIsoText exNowNov10).countP
      (fun e => e.start_iso == toLocalISO (civMin 2025 12 1 10 0)) ≤ 1 :=
  ⟨C7_iso_unique_ten.2.1 exIsoText exNowNov10 exIsoMatch (by decide) rfl
      (by decide) (by decide),
   C7_iso_unique_ten.1 exIsoText exNowNov10 _⟩
